import Mathlib

/-!
Verification of the RAK common packet forwarder (`lora_pkt_fwd.c`, RAK2287
variant) against its natural-language specification.  The relevant C
routines are shallowly embedded below: machine integers become `Nat`/`Int`
with explicit wrapping where it matters, C doubles become `ℚ` (the claims
under scrutiny only involve exactly representable values or are insensitive
to rounding), and the stateful loops become explicit step functions over
small state records.
-/

/- ------------------------------------------------------------------ -/
/- Wire protocol constants (lora_pkt_fwd.c lines 87-98)               -/
/- ------------------------------------------------------------------ -/

def PROTOCOL_VERSION : Nat := 2

def PKT_PUSH_DATA : Nat := 0

def PKT_PUSH_ACK : Nat := 1

def PKT_PULL_DATA : Nat := 2

def PKT_PULL_RESP : Nat := 3

def PKT_PULL_ACK : Nat := 4

def PKT_TX_ACK : Nat := 5

/-- The `jit_error_e` enumeration of the JIT queue (jitqueue.h); the
forwarder only ever switches on these labels, never on their numeric
values. -/
inductive JitError where
  | ok
  | tooLate
  | tooEarly
  | full
  | empty
  | collisionPacket
  | collisionBeacon
  | txFreq
  | txPower
  | gpsUnlocked
  | invalidParam
deriving DecidableEq, Repr

/- ------------------------------------------------------------------ -/
/- send_tx_ack (lora_pkt_fwd.c lines 1631-1748)                       -/
/- ------------------------------------------------------------------ -/

/-- First four bytes of the TX_ACK datagram built by `send_tx_ack`:
`{PROTOCOL_VERSION, token_h, token_l, PKT_TX_ACK}` (bytes 4..11 then
carry the gateway MAC). -/
def tx_ack_header (token_h token_l : Nat) : List Nat :=
  [PROTOCOL_VERSION, token_h, token_l, PKT_TX_ACK]

/-- The JSON key `send_tx_ack` selects: `"warn":` for `JIT_ERROR_TX_POWER`,
`"error":` otherwise. -/
def tx_ack_key (e : JitError) : String :=
  match e with
  | .txPower => "\"warn\":"
  | _ => "\"error\":"

/-- The error/warning name string `send_tx_ack` writes; note that
`JIT_ERROR_FULL` and `JIT_ERROR_COLLISION_PACKET` share one case label and
both produce `"COLLISION_PACKET"`. -/
def tx_ack_name (e : JitError) : String :=
  match e with
  | .full => "\"COLLISION_PACKET\""
  | .collisionPacket => "\"COLLISION_PACKET\""
  | .tooLate => "\"TOO_LATE\""
  | .tooEarly => "\"TOO_EARLY\""
  | .collisionBeacon => "\"COLLISION_BEACON\""
  | .txFreq => "\"TX_FREQ\""
  | .txPower => "\"TX_POWER\""
  | .gpsUnlocked => "\"GPS_UNLOCKED\""
  | _ => "\"UNKNOWN\""

/-- The `,"value":N` suffix, appended only for `JIT_ERROR_TX_POWER`. -/
def tx_ack_value_suffix (e : JitError) (error_value : Int) : String :=
  match e with
  | .txPower => ",\"value\":" ++ toString error_value
  | _ => ""

/-- JSON body of the TX_ACK datagram: empty for `JIT_ERROR_OK`, otherwise
a `txpk_ack` object with an error or warning. -/
def send_tx_ack_body (e : JitError) (error_value : Int) : String :=
  match e with
  | .ok => ""
  | _ => "\x7b\"txpk_ack\":\x7b" ++ tx_ack_key e ++ tx_ack_name e ++
      tx_ack_value_suffix e error_value ++ "\x7d\x7d"

/-- Downstream rejection counters touched by `send_tx_ack` (guarded by
`mx_meas_dw` in the source). There is no dedicated counter for
`JIT_ERROR_FULL`. -/
structure DownAckStats where
  tx_rejected_collision_packet : Nat
  tx_rejected_too_late : Nat
  tx_rejected_too_early : Nat
  tx_rejected_collision_beacon : Nat
deriving DecidableEq, Repr

/-- Counter updates performed inside `send_tx_ack`'s switch. -/
def send_tx_ack_stats (e : JitError) (s : DownAckStats) : DownAckStats :=
  match e with
  | .full =>
      { s with tx_rejected_collision_packet := s.tx_rejected_collision_packet + 1 }
  | .collisionPacket =>
      { s with tx_rejected_collision_packet := s.tx_rejected_collision_packet + 1 }
  | .tooLate => { s with tx_rejected_too_late := s.tx_rejected_too_late + 1 }
  | .tooEarly => { s with tx_rejected_too_early := s.tx_rejected_too_early + 1 }
  | .collisionBeacon =>
      { s with tx_rejected_collision_beacon := s.tx_rejected_collision_beacon + 1 }
  | _ => s

/- ------------------------------------------------------------------ -/
/- thread_down: PULL_RESP trigger parsing (lines 3504-3565)           -/
/- ------------------------------------------------------------------ -/

/-- How `thread_down` classifies a parsed `txpk` object.  `imme`, `tmst`,
`tmms` are `none` when the JSON field is absent (`json_object_get_boolean`
returns -1, `json_object_get_value` returns NULL). -/
inductive TxTrigger where
  | classC
  | classA (count_us : Nat)
  | abortNoTime
  | rejectGpsUnlocked
  | classB (tmms : Nat)
deriving DecidableEq, Repr

/-- Trigger selection of `thread_down`: `imme:true` → Class C; else a
present `tmst` → Class A; else a present `tmms` → Class B, but only if GPS
is enabled and the time reference is valid — otherwise the downlink is
rejected with `GPS_UNLOCKED`; no time field at all aborts silently. -/
def parse_tx_trigger (imme : Option Bool) (tmst : Option Nat) (tmms : Option Nat)
    (gps_enabled gps_ref_valid : Bool) : TxTrigger :=
  if imme = some true then .classC
  else
    match tmst with
    | some n => .classA n
    | none =>
        match tmms with
        | none => .abortNoTime
        | some m =>
            if gps_enabled then
              if gps_ref_valid then .classB m else .rejectGpsUnlocked
            else .rejectGpsUnlocked

/-- The TX_ACK datagram `thread_down` emits at the trigger-parsing stage
(header bytes and JSON body); only the `GPS_UNLOCKED` rejection answers
here, every other outcome continues into the rest of the parser. -/
def trigger_ack (t : TxTrigger) (token_h token_l : Nat) :
    Option (List Nat × String) :=
  match t with
  | .rejectGpsUnlocked =>
      some (tx_ack_header token_h token_l, send_tx_ack_body .gpsUnlocked 0)
  | _ => none

/-- Whether the outcome continues toward `jit_enqueue`; rejected or aborted
downlinks never reach any JIT queue. -/
def trigger_enqueues (t : TxTrigger) : Bool :=
  match t with
  | .classC => true
  | .classA _ => true
  | .classB _ => true
  | .abortNoTime => false
  | .rejectGpsUnlocked => false

/- ------------------------------------------------------------------ -/
/- Theorems: C10 and C1                                               -/
/- ------------------------------------------------------------------ -/

/-- C10: a `JIT_ERROR_FULL` rejection is reported to the server with the
error string `COLLISION_PACKET` — byte-for-byte the same TX_ACK body a
collision rejection produces — and it increments the collision-packet
rejection counter (there is no dedicated full-queue counter in
`DownAckStats`, which lists every counter `send_tx_ack` touches). -/
theorem jit_full_reported_as_collision_packet (v w : Int) (s : DownAckStats) :
    send_tx_ack_body .full v = "\x7b\"txpk_ack\":\x7b\"error\":\"COLLISION_PACKET\"\x7d\x7d" ∧
    send_tx_ack_body .full v = send_tx_ack_body .collisionPacket w ∧
    send_tx_ack_stats .full s =
      { s with tx_rejected_collision_packet := s.tx_rejected_collision_packet + 1 } := by
  refine ⟨rfl, rfl, rfl⟩

/-- C1: a PULL_RESP lacking `imme` and `tmst` but carrying `tmms` (a
Class B downlink), met with GPS disabled or an invalid time reference, is
rejected: the TX_ACK echoes the PULL_RESP token and carries the
`GPS_UNLOCKED` error body, and the packet never reaches a JIT queue. -/
theorem class_b_gps_unlocked_rejected (tmms token_h token_l : Nat)
    (gps_enabled gps_ref_valid : Bool)
    (h : gps_enabled = false ∨ gps_ref_valid = false) :
    parse_tx_trigger none none (some tmms) gps_enabled gps_ref_valid =
      .rejectGpsUnlocked ∧
    trigger_ack (parse_tx_trigger none none (some tmms) gps_enabled gps_ref_valid)
        token_h token_l =
      some ([PROTOCOL_VERSION, token_h, token_l, PKT_TX_ACK],
            "\x7b\"txpk_ack\":\x7b\"error\":\"GPS_UNLOCKED\"\x7d\x7d") ∧
    trigger_enqueues
        (parse_tx_trigger none none (some tmms) gps_enabled gps_ref_valid) = false := by
  have ht : parse_tx_trigger none none (some tmms) gps_enabled gps_ref_valid =
      .rejectGpsUnlocked := by
    rcases h with h | h
    · subst h; cases gps_ref_valid <;> rfl
    · subst h; cases gps_enabled <;> rfl
  refine ⟨ht, ?_, ?_⟩
  · rw [ht]; rfl
  · rw [ht]; rfl

/-- Witness for C1 at a concrete input: `tmms = 1280000000000`, token
`0xAB 0xCD`, GPS enabled but reference invalid. -/
theorem class_b_gps_unlocked_rejected_witness :
    parse_tx_trigger none none (some 1280000000000) true false =
      .rejectGpsUnlocked ∧
    trigger_ack (parse_tx_trigger none none (some 1280000000000) true false)
        171 205 =
      some ([PROTOCOL_VERSION, 171, 205, PKT_TX_ACK],
            "\x7b\"txpk_ack\":\x7b\"error\":\"GPS_UNLOCKED\"\x7d\x7d") ∧
    trigger_enqueues (parse_tx_trigger none none (some 1280000000000) true false) =
      false :=
  class_b_gps_unlocked_rejected 1280000000000 171 205 true false (Or.inr rfl)

/- ------------------------------------------------------------------ -/
/- thread_up: PUSH_ACK wait window (lines 2986-3017)                  -/
/- ------------------------------------------------------------------ -/

/-- Acceptance test applied by `thread_up` to each datagram received while
waiting for a PUSH_ACK: at least 4 bytes, protocol version 2, packet type
`PKT_PUSH_ACK`, and a token equal to the one of the PUSH_DATA just sent. -/
def push_ack_accept (buff : List Nat) (token_h token_l : Nat) : Bool :=
  decide (4 ≤ buff.length) && (buff.getD 0 0 == PROTOCOL_VERSION) &&
    (buff.getD 3 0 == PKT_PUSH_ACK) &&
    (buff.getD 1 0 == token_h) && (buff.getD 2 0 == token_l)

/-- Effect of one received datagram on the `meas_up_ack_rcv` counter:
incremented on acceptance, untouched otherwise (the source `continue`s on
every failed check). -/
def thread_up_ack_step (meas_up_ack_rcv : Nat) (buff : List Nat)
    (token_h token_l : Nat) : Nat :=
  if push_ack_accept buff token_h token_l then meas_up_ack_rcv + 1
  else meas_up_ack_rcv

/-- C5: the upstream ACK counter moves on a received datagram exactly when
the datagram is ≥ 4 bytes, carries protocol version 2 and type PUSH_ACK,
and echoes the last-sent token; a datagram failing any of these checks
leaves the counter unchanged. -/
theorem push_ack_token_isolation (meas : Nat) (buff : List Nat)
    (token_h token_l : Nat) :
    (thread_up_ack_step meas buff token_h token_l = meas + 1 ↔
      4 ≤ buff.length ∧ buff.getD 0 0 = PROTOCOL_VERSION ∧
        buff.getD 3 0 = PKT_PUSH_ACK ∧
        buff.getD 1 0 = token_h ∧ buff.getD 2 0 = token_l) ∧
    (¬ (4 ≤ buff.length ∧ buff.getD 0 0 = PROTOCOL_VERSION ∧
        buff.getD 3 0 = PKT_PUSH_ACK ∧
        buff.getD 1 0 = token_h ∧ buff.getD 2 0 = token_l) →
      thread_up_ack_step meas buff token_h token_l = meas) := by
  have key : push_ack_accept buff token_h token_l = true ↔
      (4 ≤ buff.length ∧ buff.getD 0 0 = PROTOCOL_VERSION ∧
        buff.getD 3 0 = PKT_PUSH_ACK ∧
        buff.getD 1 0 = token_h ∧ buff.getD 2 0 = token_l) := by
    simp only [push_ack_accept, Bool.and_eq_true, beq_iff_eq,
      decide_eq_true_eq]
    tauto
  have hstep : thread_up_ack_step meas buff token_h token_l =
      if push_ack_accept buff token_h token_l = true then meas + 1 else meas := rfl
  by_cases hp : push_ack_accept buff token_h token_l = true
  · rw [hstep, if_pos hp]
    exact ⟨⟨fun _ => key.mp hp, fun _ => rfl⟩, fun hn => absurd (key.mp hp) hn⟩
  · rw [hstep, if_neg hp]
    exact ⟨⟨fun h => absurd h (by omega), fun hc => absurd (key.mpr hc) hp⟩,
      fun _ => rfl⟩

/-- Witness for C5: a well-formed PUSH_ACK with the wrong token leaves the
counter at 7, and the matching-token one bumps it to 8. -/
theorem push_ack_token_isolation_witness :
    thread_up_ack_step 7 [2, 9, 9, 1] 171 205 = 7 ∧
    thread_up_ack_step 7 [2, 171, 205, 1] 171 205 = 7 + 1 :=
  ⟨(push_ack_token_isolation 7 [2, 9, 9, 1] 171 205).2 (by decide),
   (push_ack_token_isolation 7 [2, 171, 205, 1] 171 205).1.2 (by decide)⟩

/- ------------------------------------------------------------------ -/
/- C double casts, modelled over ℚ                                    -/
/- ------------------------------------------------------------------ -/

/-- C cast of a real (double) value to a signed integer type: truncation
toward zero. -/
def c_trunc (q : ℚ) : Int :=
  if 0 ≤ q then ⌊q⌋ else -⌊-q⌋

/-- Two's-complement 32-bit image of a signed value (how an `int32_t`
reinterprets as `uint32_t`). -/
def to_uint32 (z : Int) : Nat := (z % (2 ^ 32)).toNat

/-- Low 24 bits of a signed value: the three little-endian payload bytes
`{v, v >> 8, v >> 16}` taken together. -/
def to_uint24 (z : Int) : Nat := (z % (2 ^ 24)).toNat

/- ------------------------------------------------------------------ -/
/- thread_down: beacon latitude/longitude encoding (lines 3222-3239)  -/
/- ------------------------------------------------------------------ -/

/-- `field_latitude` computation: `(int32_t)((lat / 90.0) * (double)(1 << 23))`
then saturation to `[0xFF800000, 0x007FFFFF]`. -/
def beacon_field_latitude (lat : ℚ) : Int :=
  let f := c_trunc (lat / 90 * 8388608)
  if 8388607 < f then 8388607
  else if f < -8388608 then -8388608
  else f

/-- `field_longitude` computation: `(int32_t)((lon / 180.0) * (double)(1 << 23))`
then saturation to `[0xFF800000, 0x007FFFFF]`. -/
def beacon_field_longitude (lon : ℚ) : Int :=
  let f := c_trunc (lon / 180 * 8388608)
  if 8388607 < f then 8388607
  else if f < -8388608 then -8388608
  else f

/-- C2: beacon latitude/longitude are signed 24-bit fractions of ±90°/±180°
saturated to `[0xFF800000, 0x007FFFFF]` (= [-8388608, 8388607]); latitude
90° encodes as `0x007FFFFF`, and longitude -180° as `0xFF800000` as an
`int32_t` image, i.e. 24-bit value `0x800000`. -/
theorem beacon_lat_lon_saturation :
    (∀ lat : ℚ, -8388608 ≤ beacon_field_latitude lat ∧
        beacon_field_latitude lat ≤ 8388607) ∧
    (∀ lon : ℚ, -8388608 ≤ beacon_field_longitude lon ∧
        beacon_field_longitude lon ≤ 8388607) ∧
    beacon_field_latitude 90 = 8388607 ∧
    to_uint32 (beacon_field_latitude 90) = 0x007FFFFF ∧
    beacon_field_longitude (-180) = -8388608 ∧
    to_uint32 (beacon_field_longitude (-180)) = 0xFF800000 ∧
    to_uint24 (beacon_field_longitude (-180)) = 0x800000 := by
  have hlat : ∀ lat : ℚ, -8388608 ≤ beacon_field_latitude lat ∧
      beacon_field_latitude lat ≤ 8388607 := by
    intro lat
    unfold beacon_field_latitude
    set f := c_trunc (lat / 90 * 8388608) with hf
    by_cases h1 : 8388607 < f
    · simp [h1]
    · by_cases h2 : f < -8388608
      · simp [h1, h2]
      · simp [h1, h2]; omega
  have hlon : ∀ lon : ℚ, -8388608 ≤ beacon_field_longitude lon ∧
      beacon_field_longitude lon ≤ 8388607 := by
    intro lon
    unfold beacon_field_longitude
    set f := c_trunc (lon / 180 * 8388608) with hf
    by_cases h1 : 8388607 < f
    · simp [h1]
    · by_cases h2 : f < -8388608
      · simp [h1, h2]
      · simp [h1, h2]; omega
  have hl90 : beacon_field_latitude 90 = 8388607 := by
    have : ((90 : ℚ) / 90 * 8388608) = 8388608 := by norm_num
    unfold beacon_field_latitude
    rw [this]
    have htr : c_trunc (8388608 : ℚ) = 8388608 := by
      unfold c_trunc
      rw [if_pos (by norm_num)]
      exact_mod_cast Int.floor_intCast 8388608
    rw [htr]
    norm_num
  have hlon180 : beacon_field_longitude (-180) = -8388608 := by
    have : ((-180 : ℚ) / 180 * 8388608) = -8388608 := by norm_num
    unfold beacon_field_longitude
    rw [this]
    have htr : c_trunc (-8388608 : ℚ) = -8388608 := by
      unfold c_trunc
      rw [if_neg (by norm_num)]
      have : (-(-8388608 : ℚ)) = ((8388608 : ℤ) : ℚ) := by norm_num
      rw [this, Int.floor_intCast]
    rw [htr]
    norm_num
  refine ⟨hlat, hlon, hl90, ?_, hlon180, ?_, ?_⟩
  · rw [hl90]; rfl
  · rw [hlon180]; rfl
  · rw [hlon180]; rfl


/- ------------------------------------------------------------------ -/
/- modify_os_time (lines 4037-4079)                                   -/
/- ------------------------------------------------------------------ -/

/-- Epoch-seconds threshold guarding the OS clock update: the source
constant `1583402711`, i.e. 2020-03-05T10:05:11Z (its comment reads
"time less than 2020-03-05 18:00:00", which matches no timezone). -/
def MODIFY_OS_TIME_MIN_SEC : Int := 1583402711

/-- One call of `modify_os_time`, with the GPS-derived UTC seconds
`gps_sec` (the source's `y.tv_sec`), the system seconds `sys_sec`
(`stamp.tv_sec`), and whether `clock_settime` would succeed.  Returns
`(clock set during this call, new value of the static flag
time_already_set)`. -/
def modify_os_time_step (gps_enabled already : Bool) (gps_sec sys_sec : Int)
    (settime_ok : Bool) : Bool × Bool :=
  if gps_enabled = false ∨ already = true then (false, already)
  else if gps_sec < MODIFY_OS_TIME_MIN_SEC then (false, already)
  else if |gps_sec - sys_sec| < 10 then (false, true)
  else if settime_ok then (true, true) else (false, already)

/-- Once the `time_already_set` flag is up, `modify_os_time` does nothing
ever again. -/
theorem modify_os_time_step_already (en ok : Bool) (g s : Int) :
    modify_os_time_step en true g s ok = (false, true) := by
  unfold modify_os_time_step
  rw [if_pos (Or.inr rfl)]

/-- A call sets the clock only from a clear flag, raises the flag, and only
under the code's two numeric conditions. -/
theorem modify_os_time_step_set (en already ok : Bool) (g s : Int)
    (h : (modify_os_time_step en already g s ok).1 = true) :
    already = false ∧ modify_os_time_step en already g s ok = (true, true) ∧
      MODIFY_OS_TIME_MIN_SEC ≤ g ∧ 10 ≤ |g - s| := by
  unfold modify_os_time_step at h ⊢
  by_cases h1 : en = false ∨ already = true
  · rw [if_pos h1] at h
    exact absurd h (by simp)
  · rw [if_neg h1] at h ⊢
    by_cases h2 : g < MODIFY_OS_TIME_MIN_SEC
    · rw [if_pos h2] at h
      exact absurd h (by simp)
    · rw [if_neg h2] at h ⊢
      by_cases h3 : |g - s| < 10
      · rw [if_pos h3] at h
        exact absurd h (by simp)
      · rw [if_neg h3] at h ⊢
        by_cases h4 : ok = true
        · rw [if_pos h4]
          push_neg at h1
          exact ⟨by simpa using h1.2, rfl, le_of_not_lt h2, le_of_not_lt h3⟩
        · rw [if_neg h4] at h
          exact absurd h (by simp)

/-- One call folded into the per-lifetime accumulator `(flag, number of
times the OS clock was actually set)`. -/
def modify_os_time_fold_step (st : Bool × Nat) (c : Bool × Int × Int × Bool) :
    Bool × Nat :=
  let r := modify_os_time_step c.1 st.1 c.2.1 c.2.2.1 c.2.2.2
  (r.2, st.2 + (if r.1 then 1 else 0))

/-- A whole process lifetime: fold the calls to `modify_os_time` from the
initial state (`time_already_set = false`, zero clock updates). -/
def modify_os_time_run (calls : List (Bool × Int × Int × Bool)) : Bool × Nat :=
  calls.foldl modify_os_time_fold_step (false, 0)

/-- Helper invariant: a run sets the clock at most once more while the
flag is clear, and never once it is set. -/
theorem modify_os_time_fold_bound (calls : List (Bool × Int × Int × Bool)) :
    ∀ (already : Bool) (n : Nat),
      (calls.foldl modify_os_time_fold_step (already, n)).2 ≤
        n + (if already then 0 else 1) := by
  induction calls with
  | nil =>
      intro a n
      cases a <;> simp
  | cons c rest ih =>
      intro a n
      rcases c with ⟨en, gps, sys, ok⟩
      rw [List.foldl_cons]
      cases a with
      | true =>
          have hstep : modify_os_time_fold_step (true, n) (en, gps, sys, ok) =
              (true, n) := by
            simp [modify_os_time_fold_step, modify_os_time_step_already]
          rw [hstep]
          simpa using ih true n
      | false =>
          by_cases hr : (modify_os_time_step en false gps sys ok).1 = true
          · have hset := modify_os_time_step_set en false ok gps sys hr
            have hstep : modify_os_time_fold_step (false, n) (en, gps, sys, ok) =
                (true, n + 1) := by
              simp [modify_os_time_fold_step, hset.2.1]
            rw [hstep]
            have := ih true (n + 1)
            simp only [if_pos rfl] at this
            simpa using this
          · rw [Bool.not_eq_true] at hr
            have hstep : modify_os_time_fold_step (false, n) (en, gps, sys, ok) =
                ((modify_os_time_step en false gps sys ok).2, n) := by
              simp [modify_os_time_fold_step, hr]
            rw [hstep]
            have := ih (modify_os_time_step en false gps sys ok).2 n
            cases hflag : (modify_os_time_step en false gps sys ok).2 <;>
              rw [hflag] at this <;> simp at this ⊢ <;> omega

/-- C3 (amended): across one process lifetime `modify_os_time` sets the OS
clock at most once, and a call sets it only when the GPS-derived time is at
least epoch second 1583402711 (2020-03-05T10:05:11Z — not 18:00:00Z) and
the absolute GPS/system difference is at least 10 seconds. -/
theorem modify_os_time_at_most_once (calls : List (Bool × Int × Int × Bool))
    (en already ok : Bool) (gps_sec sys_sec : Int)
    (hset : (modify_os_time_step en already gps_sec sys_sec ok).1 = true) :
    (modify_os_time_run calls).2 ≤ 1 ∧
    (MODIFY_OS_TIME_MIN_SEC ≤ gps_sec ∧ 10 ≤ |gps_sec - sys_sec|) := by
  refine ⟨?_, ?_⟩
  · have := modify_os_time_fold_bound calls false 0
    simpa [modify_os_time_run] using this
  · have h := modify_os_time_step_set en already ok gps_sec sys_sec hset
    exact ⟨h.2.2.1, h.2.2.2⟩

/-- Witness for C3 (amended): a two-call lifetime whose first call sets the
clock (GPS at the code's threshold, system clock at 0); the run counts at
most one set and the numeric conditions hold at that call. -/
theorem modify_os_time_at_most_once_witness :
    (modify_os_time_run
        [(true, 1583402711, 0, true), (true, 1583402800, 0, true)]).2 ≤ 1 ∧
    (MODIFY_OS_TIME_MIN_SEC ≤ (1583402711 : Int) ∧
      10 ≤ |(1583402711 : Int) - 0|) :=
  modify_os_time_at_most_once
    [(true, 1583402711, 0, true), (true, 1583402800, 0, true)]
    true false true 1583402711 0 (by decide)

/-- Counterexample to C3 as stated: with the flag clear, GPS enabled and a
working `clock_settime`, the call at GPS epoch second 1583402711 — which is
before 2020-03-05T18:00:00Z = epoch 1583431200 — does set the system
clock. -/
theorem modify_os_time_threshold_cex :
    (modify_os_time_step true false 1583402711 0 true).1 = true ∧
    (1583402711 : Int) < 1583431200 := by
  exact ⟨by decide, by decide⟩

/- ------------------------------------------------------------------ -/
/- thread_jit: beacon frequency compensation (lines 3946-3952)        -/
/- ------------------------------------------------------------------ -/

/-- Frequency handed to the radio when `thread_jit` dequeues a beacon:
`pkt.freq_hz = (uint32_t)(xtal_correct * (double)pkt.freq_hz)` — a C cast,
i.e. truncation toward zero, then reduction into `uint32_t`. -/
def thread_jit_beacon_freq (xtal_correct : ℚ) (freq_hz : Nat) : Nat :=
  to_uint32 (c_trunc (xtal_correct * freq_hz))

/-- C8 (amended): for a nonnegative XTAL correction whose product with the
stored frequency fits in 32 bits, the frequency handed to the radio is the
floor (truncation, not rounding) of `freq_hz · xtal_correct`. -/
theorem thread_jit_beacon_freq_truncates (xc : ℚ) (f : Nat)
    (hxc : 0 ≤ xc) (hlt : xc * f < 2 ^ 32) :
    (thread_jit_beacon_freq xc f : Int) = ⌊xc * (f : ℚ)⌋ := by
  have hq : (0 : ℚ) ≤ xc * f := mul_nonneg hxc (by positivity)
  have htr : c_trunc (xc * f) = ⌊xc * (f : ℚ)⌋ := by
    unfold c_trunc
    rw [if_pos hq]
  have hfl0 : (0 : Int) ≤ ⌊xc * (f : ℚ)⌋ := Int.floor_nonneg.mpr hq
  have hflt : ⌊xc * (f : ℚ)⌋ < 2 ^ 32 := by
    rw [Int.floor_lt]
    exact_mod_cast hlt
  unfold thread_jit_beacon_freq to_uint32
  rw [htr, Int.emod_eq_of_lt hfl0 (by norm_num at hflt ⊢; exact hflt)]
  exact Int.toNat_of_nonneg hfl0

/-- Witness for C8 (amended): `xtal_correct = 1 + 10⁻⁶` (a 1 ppm crystal
error) and the EU868 beacon frequency 869525000 Hz give the truncated
product 869525869. -/
theorem thread_jit_beacon_freq_truncates_witness :
    thread_jit_beacon_freq (1 + 1 / 1000000) 869525000 = 869525869 := by
  have h := thread_jit_beacon_freq_truncates (1 + 1 / 1000000) 869525000
    (by norm_num) (by norm_num)
  have hfl : ⌊((1 + 1 / 1000000 : ℚ)) * ((869525000 : Nat) : ℚ)⌋ =
      (869525869 : Int) := by
    rw [Int.floor_eq_iff]
    constructor
    · push_cast
      norm_num
    · push_cast
      norm_num
  rw [hfl] at h
  exact_mod_cast h

/-- Counterexample to C8 as stated: at `xtal_correct = 1 + 10⁻⁶` and
`freq_hz = 869525000` the product is 869525869.525; the code hands
869525869 to the radio while rounding to the nearest integer gives
869525870. -/
theorem thread_jit_beacon_freq_round_cex :
    thread_jit_beacon_freq (1 + 1 / 1000000) 869525000 = 869525869 ∧
    round ((1 + 1 / 1000000 : ℚ) * 869525000) = 869525870 := by
  have hfl : ⌊((1 + 1 / 1000000 : ℚ)) * (869525000 : ℚ)⌋ = (869525869 : Int) := by
    rw [Int.floor_eq_iff]
    constructor
    · norm_num
    · norm_num
  constructor
  · have hq : (0 : ℚ) ≤ (1 + 1 / 1000000 : ℚ) * (869525000 : ℚ) := by norm_num
    unfold thread_jit_beacon_freq to_uint32 c_trunc
    rw [if_pos (by push_cast; exact hq)]
    have hfl2 : ⌊((1 + 1 / 1000000 : ℚ)) * ((869525000 : Nat) : ℚ)⌋ =
        (869525869 : Int) := by
      push_cast
      exact hfl
    rw [hfl2]
    decide
  · rw [round_eq]
    have : ((1 + 1 / 1000000 : ℚ) * 869525000 + 1 / 2) = 34781034801 / 40 := by
      norm_num
    rw [this]
    rw [Int.floor_eq_iff]
    constructor
    · norm_num
    · norm_num

/- ------------------------------------------------------------------ -/
/- thread_down: beacon pre-allocation loop (lines 3300-3415)          -/
/- ------------------------------------------------------------------ -/

/-- GPS second targeted by one beacon pre-allocation iteration: from
`last_beacon_gps_time` when one is queued (`≠ 0`), otherwise from the
current GPS reference second, plus one period, plus one period per retry
(`next += retry * beacon_period`). -/
def next_beacon_gps_sec (now_gps last_beacon period retry : Int) : Int :=
  (if last_beacon = 0 then now_gps + (period - now_gps % period)
   else last_beacon + period) + retry * period

/-- Beacon-generator state carried across pre-allocation iterations:
`last_beacon_gps_time.tv_sec`, the local `retry` counter, and the two
downstream beacon counters. -/
structure BeaconSchedState where
  last_beacon_gps_sec : Int
  retry : Int
  nb_beacon_queued : Nat
  nb_beacon_rejected : Nat
deriving DecidableEq, Repr

/-- Outcome handling of one `jit_enqueue` attempt for a beacon: on success
advance `last_beacon_gps_time`, reset `retry`, count queued; on failure
increment `retry` and count a rejection unless the failure is
`COLLISION_BEACON`. -/
def beacon_sched_step (s : BeaconSchedState) (now_gps period : Int)
    (enq : JitError) : BeaconSchedState :=
  let next := next_beacon_gps_sec now_gps s.last_beacon_gps_sec period s.retry
  if enq = .ok then
    { last_beacon_gps_sec := next, retry := 0,
      nb_beacon_queued := s.nb_beacon_queued + 1,
      nb_beacon_rejected := s.nb_beacon_rejected }
  else
    { s with
      retry := s.retry + 1,
      nb_beacon_rejected :=
        s.nb_beacon_rejected + (if enq = .collisionBeacon then 0 else 1) }

/-- C6: each pre-allocation iteration targets
`next_gps = (last_beacon_gps_time if nonzero, else now_gps aligned down to
a multiple of beacon_period) + beacon_period · (1 + retry)`; on success the
reference advances and `retry` resets, a `COLLISION_BEACON` rejection only
bumps `retry`, and any other failure bumps both `retry` and the
beacon-rejected counter. -/
theorem beacon_preallocation_spec (s : BeaconSchedState) (now period : Int)
    (enq : JitError) (hnow : 0 ≤ now) (hper : 0 < period) :
    (next_beacon_gps_sec now s.last_beacon_gps_sec period s.retry =
      (if s.last_beacon_gps_sec = 0 then now - now % period
       else s.last_beacon_gps_sec) + period * (1 + s.retry)) ∧
    (period ∣ now - now % period) ∧
    (now - now % period ≤ now ∧ now - period < now - now % period) ∧
    (enq = .ok → beacon_sched_step s now period enq =
      { last_beacon_gps_sec :=
          next_beacon_gps_sec now s.last_beacon_gps_sec period s.retry,
        retry := 0, nb_beacon_queued := s.nb_beacon_queued + 1,
        nb_beacon_rejected := s.nb_beacon_rejected }) ∧
    (enq = .collisionBeacon →
      beacon_sched_step s now period enq = { s with retry := s.retry + 1 }) ∧
    (enq ≠ .ok → enq ≠ .collisionBeacon →
      beacon_sched_step s now period enq =
        { s with
          retry := s.retry + 1,
          nb_beacon_rejected := s.nb_beacon_rejected + 1 }) := by
  have hmod0 : 0 ≤ now % period := Int.emod_nonneg now (ne_of_gt hper)
  have hmodlt : now % period < period := Int.emod_lt_of_pos now hper
  refine ⟨?_, ?_, ⟨by omega, by omega⟩, ?_, ?_, ?_⟩
  · unfold next_beacon_gps_sec
    by_cases h : s.last_beacon_gps_sec = 0
    · rw [if_pos h, if_pos h]
      ring
    · rw [if_neg h, if_neg h]
      ring
  · exact Int.dvd_sub_of_emod_eq rfl
  · intro h
    unfold beacon_sched_step
    rw [if_pos h]
  · intro h
    subst h
    unfold beacon_sched_step
    rw [if_neg (by decide)]
    simp
  · intro h1 h2
    unfold beacon_sched_step
    rw [if_neg h1]
    simp [h2]

/-- Witness for C6 at a concrete input: no beacon queued yet, GPS now at
second 1280000100, period 128 s: the next slot is 1280000128, and a
successful enqueue advances the state to it. -/
theorem beacon_preallocation_spec_witness :
    next_beacon_gps_sec 1280000100 0 128 0 = 1280000128 ∧
    beacon_sched_step ⟨0, 0, 0, 0⟩ 1280000100 128 .ok = ⟨1280000128, 0, 1, 0⟩ := by
  have h := beacon_preallocation_spec ⟨0, 0, 0, 0⟩ 1280000100 128 .ok
    (by decide) (by decide)
  constructor
  · have h1 := h.1
    simp only at h1
    rw [h1]
    decide
  · have h4 := h.2.2.2.1 rfl
    simp only at h4
    rw [h4]
    decide

/- ------------------------------------------------------------------ -/
/- thread_valid: XTAL correction tracking (lines 4263-4356)           -/
/- ------------------------------------------------------------------ -/

def GPS_REF_MAX_AGE : Int := 30

def XERR_INIT_AVG : Nat := 16

def XERR_FILT_COEF : ℚ := 256

/-- State of the validation thread across its 1 s iterations: the shared
`xtal_correct_ok` / `xtal_correct` pair and the local accumulation
variables `init_cpt` / `init_acc`. -/
structure XtalState where
  xtal_correct_ok : Bool
  xtal_correct : ℚ
  init_cpt : Nat
  init_acc : ℚ
deriving DecidableEq, Repr

/-- The state reached whenever the time reference is too old or in the
future: correction invalidated and forced back to 1.0, accumulation
restarted. -/
def xtal_reset : XtalState :=
  { xtal_correct_ok := false, xtal_correct := 1, init_cpt := 0, init_acc := 0 }

/-- One 1-second iteration of `thread_valid`, fed the age of the time
reference and the current per-PPS `xtal_err` sample. -/
def thread_valid_step (s : XtalState) (gps_ref_age : Int) (xtal_err : ℚ) :
    XtalState :=
  if 0 ≤ gps_ref_age ∧ gps_ref_age ≤ GPS_REF_MAX_AGE then
    if s.init_cpt < XERR_INIT_AVG then
      { s with
        init_acc := s.init_acc + xtal_err,
        init_cpt := s.init_cpt + 1 }
    else if s.init_cpt = XERR_INIT_AVG then
      { xtal_correct_ok := true,
        xtal_correct := (XERR_INIT_AVG : ℚ) / s.init_acc,
        init_cpt := s.init_cpt + 1,
        init_acc := s.init_acc }
    else
      { s with
        xtal_correct := s.xtal_correct - s.xtal_correct / XERR_FILT_COEF +
          (1 / xtal_err) / XERR_FILT_COEF }
  else xtal_reset

/-- `thread_valid_step` uncurried for folding over a sample trace. -/
def thread_valid_fold_step (t : XtalState) (p : Int × ℚ) : XtalState :=
  thread_valid_step t p.1 p.2

/-- A run of the validation thread over a trace of (reference age, xtal_err)
samples. -/
def thread_valid_run (s : XtalState) (samples : List (Int × ℚ)) : XtalState :=
  samples.foldl thread_valid_fold_step s

/-- Helper: while fewer than 16 samples are collected and the reference
stays valid, the thread only accumulates: counter and sum advance, the
published correction is untouched. -/
theorem thread_valid_accumulates (L : List (Int × ℚ)) :
    ∀ s : XtalState, (∀ p ∈ L, 0 ≤ p.1 ∧ p.1 ≤ GPS_REF_MAX_AGE) →
      s.init_cpt + L.length ≤ 16 →
      thread_valid_run s L =
        { s with
          init_cpt := s.init_cpt + L.length,
          init_acc := s.init_acc + (L.map Prod.snd).sum } := by
  induction L with
  | nil =>
      intro s _ _
      cases s
      simp [thread_valid_run]
  | cons p rest ih =>
      intro s hv hlen
      have hstep : thread_valid_fold_step s p =
          { s with
            init_acc := s.init_acc + p.2,
            init_cpt := s.init_cpt + 1 } := by
        unfold thread_valid_fold_step thread_valid_step
        rw [if_pos (hv p (List.mem_cons_self p rest))]
        rw [if_pos (by simp only [XERR_INIT_AVG]; simp at hlen; omega)]
      unfold thread_valid_run at ih ⊢
      rw [List.foldl_cons, hstep]
      rw [ih _ (fun q hq => hv q (List.mem_cons_of_mem p hq))
        (by simp at hlen ⊢; omega)]
      simp only [XtalState.mk.injEq, List.length_cons, List.map_cons,
        List.sum_cons]
      refine ⟨trivial, trivial, by omega, by ring⟩

/-- C7: (1) an invalid reference age (negative or above 30 s) resets the
tracker: correction 1.0, marked invalid, accumulation restarted from zero;
(2) from a reset, 16 valid samples accumulate and the next valid iteration
publishes `xtal_correct = 16 / Σ xtal_err` and marks it valid; (3) every
later valid sample low-pass filters:
`xtal_correct ← xtal_correct·(1 − 1/256) + (1/xtal_err)·(1/256)`. -/
theorem xtal_tracker_spec :
    (∀ (s : XtalState) (age : Int) (err : ℚ),
      age < 0 ∨ GPS_REF_MAX_AGE < age →
      thread_valid_step s age err = xtal_reset) ∧
    (∀ (L : List (Int × ℚ)) (age17 : Int) (e17 : ℚ),
      L.length = 16 → (∀ p ∈ L, 0 ≤ p.1 ∧ p.1 ≤ GPS_REF_MAX_AGE) →
      0 ≤ age17 → age17 ≤ GPS_REF_MAX_AGE →
      thread_valid_run xtal_reset (L ++ [(age17, e17)]) =
        { xtal_correct_ok := true,
          xtal_correct := 16 / (L.map Prod.snd).sum,
          init_cpt := 17,
          init_acc := (L.map Prod.snd).sum }) ∧
    (∀ (s : XtalState) (age : Int) (err : ℚ),
      0 ≤ age → age ≤ GPS_REF_MAX_AGE → 16 < s.init_cpt →
      thread_valid_step s age err =
        { s with
          xtal_correct := s.xtal_correct * (1 - 1 / 256) +
            (1 / err) * (1 / 256) }) := by
  refine ⟨?_, ?_, ?_⟩
  · intro s age err h
    unfold thread_valid_step
    rw [if_neg (by simp only [GPS_REF_MAX_AGE] at h ⊢; omega)]
  · intro L age17 e17 hlen hv h0 h30
    unfold thread_valid_run
    rw [List.foldl_append]
    have hacc := thread_valid_accumulates L xtal_reset hv
      (by simp [xtal_reset, hlen])
    unfold thread_valid_run at hacc
    rw [hacc]
    simp only [List.foldl_cons, List.foldl_nil]
    unfold thread_valid_fold_step thread_valid_step
    rw [if_pos ⟨h0, h30⟩]
    rw [if_neg (by simp [xtal_reset, hlen, XERR_INIT_AVG])]
    rw [if_pos (by simp [xtal_reset, hlen, XERR_INIT_AVG])]
    simp only [xtal_reset, XtalState.mk.injEq, XERR_INIT_AVG, hlen]
    refine ⟨trivial, by norm_num, by simp [hlen], by simp⟩
  · intro s age err h0 h30 hcpt
    unfold thread_valid_step
    rw [if_pos ⟨h0, h30⟩]
    rw [if_neg (by simp only [XERR_INIT_AVG]; omega)]
    rw [if_neg (by simp only [XERR_INIT_AVG]; omega)]
    simp only [XtalState.mk.injEq, XERR_FILT_COEF]
    refine ⟨trivial, by ring, trivial, trivial⟩

/-- Witness for C7: seventeen valid iterations with `xtal_err = 1` each
leave the tracker locked with `xtal_correct = 16/16 = 1`. -/
theorem xtal_tracker_spec_witness :
    thread_valid_run xtal_reset
        (List.replicate 16 ((0 : Int), (1 : ℚ)) ++ [((0 : Int), (1 : ℚ))]) =
      { xtal_correct_ok := true, xtal_correct := 1, init_cpt := 17,
        init_acc := 16 } := by
  have h := xtal_tracker_spec.2.1 (List.replicate 16 ((0 : Int), (1 : ℚ)))
    0 1 (by simp) (by intro p hp; simp at hp; simp [hp, GPS_REF_MAX_AGE])
    le_rfl (by simp [GPS_REF_MAX_AGE])
  rw [h]
  simp only [List.map_replicate, List.sum_replicate, XtalState.mk.injEq]
  refine ⟨trivial, by norm_num, trivial, by norm_num⟩

/- ------------------------------------------------------------------ -/
/- thread_up: per-packet serialization outcome (lines 2503-2845)      -/
/- ------------------------------------------------------------------ -/

/-- CRC status of a fetched radio packet as `thread_up` switches on it:
the three named HAL statuses, or anything else. -/
inductive RxStatus where
  | crcOk
  | crcBad
  | noCrc
  | statusOther
deriving DecidableEq, Repr

/-- Modulation field as `thread_up` tests it: `MOD_LORA`, `MOD_FSK`, or an
unrecognized value. -/
inductive RxModulation where
  | lora
  | fsk
  | modOther
deriving DecidableEq, Repr

/-- The fields of a fetched packet that determine whether `thread_up`
skips it, serializes it, or kills the process.  `datarate` is the HAL
`DR_LORA_SFx` value (the SF number, 5–12 when valid); `coderate` is valid
when it is `CR_LORA_4_5..CR_LORA_4_8` (1–4) or the special 0 (`OFF`);
`bandwidth_known` states whether the bandwidth is one of
`BW_{125,250,500}KHZ`. -/
structure RxPkt where
  status : RxStatus
  modulation : RxModulation
  datarate : Nat
  bandwidth_known : Bool
  coderate : Nat
deriving DecidableEq, Repr

/-- What `thread_up` does with one fetched packet. -/
inductive PktOutcome where
  | skipped
  | forwarded
  | processExit
deriving DecidableEq, Repr

/-- Serialization of a packet that passed the CRC filter: LoRa packets
with an unknown datarate, bandwidth or coderate, and packets with an
unknown modulation, hit `exit(EXIT_FAILURE)` in the source; FSK and
well-formed LoRa packets are forwarded. -/
def serialize_rxpkt (p : RxPkt) : PktOutcome :=
  match p.modulation with
  | .lora =>
      if 5 ≤ p.datarate ∧ p.datarate ≤ 12 then
        if p.bandwidth_known then
          if p.coderate ≤ 4 then .forwarded else .processExit
        else .processExit
      else .processExit
  | .fsk => .forwarded
  | .modOther => .processExit

/-- Full per-packet treatment: the CRC-status filter (unknown statuses are
skipped with a warning — the `exit` there is commented out), then
serialization. -/
def thread_up_pkt (fwd_valid_pkt fwd_error_pkt fwd_nocrc_pkt : Bool)
    (p : RxPkt) : PktOutcome :=
  match p.status with
  | .crcOk => if fwd_valid_pkt then serialize_rxpkt p else .skipped
  | .crcBad => if fwd_error_pkt then serialize_rxpkt p else .skipped
  | .noCrc => if fwd_nocrc_pkt then serialize_rxpkt p else .skipped
  | .statusOther => .skipped

/-- C9 (amended): a packet with an unknown CRC status is skipped and the
loop continues, and a filtered-out packet is skipped; but a packet that
passes the CRC filter terminates the process (`exit(EXIT_FAILURE)`) exactly
when its modulation is unrecognized or it is LoRa with an out-of-range
datarate, bandwidth or coderate — it is forwarded otherwise. -/
theorem thread_up_pkt_outcomes (fv fe fn : Bool) (p : RxPkt) :
    (p.status = .statusOther →
      thread_up_pkt fv fe fn p = .skipped) ∧
    (thread_up_pkt fv fe fn p = .processExit ↔
      ((p.status = .crcOk ∧ fv = true) ∨ (p.status = .crcBad ∧ fe = true) ∨
        (p.status = .noCrc ∧ fn = true)) ∧
      (p.modulation = .modOther ∨
        (p.modulation = .lora ∧
          (¬ (5 ≤ p.datarate ∧ p.datarate ≤ 12) ∨ p.bandwidth_known = false ∨
            4 < p.coderate)))) := by
  rcases p with ⟨st, md, dr, bw, cr⟩
  constructor
  · intro h
    subst h
    rfl
  · cases st <;> cases md <;> cases fv <;> cases fe <;> cases fn <;> cases bw <;>
      simp [thread_up_pkt, serialize_rxpkt] <;> by_cases h5 : 5 ≤ dr <;>
      by_cases h12 : dr ≤ 12 <;> by_cases h4 : cr ≤ 4 <;>
      simp [h5, h12, h4] <;> omega

/-- Witness for C9 (amended): a CRC-valid, forwarded packet with an
unrecognized modulation byte makes the upstream thread call
`exit(EXIT_FAILURE)`. -/
theorem thread_up_pkt_outcomes_witness :
    thread_up_pkt true true true
      { status := .crcOk, modulation := .modOther, datarate := 7,
        bandwidth_known := true, coderate := 1 } = .processExit :=
  (thread_up_pkt_outcomes true true true
      { status := .crcOk, modulation := .modOther, datarate := 7,
        bandwidth_known := true, coderate := 1 }).2.mpr
    (by exact ⟨Or.inl ⟨rfl, rfl⟩, Or.inl rfl⟩)

/-- Counterexample to C9 as stated: the claim says the upstream thread
forwards or skips every fetched packet whatever its modulation, datarate,
bandwidth and coderate hold; but a CRC-valid LoRa packet with datarate
value 13 (no `DR_LORA_SF13` exists) drives `thread_up` into
`exit(EXIT_FAILURE)` rather than forwarding or skipping. -/
theorem thread_up_unknown_datarate_exits_cex :
    thread_up_pkt true true true
      { status := .crcOk, modulation := .lora, datarate := 13,
        bandwidth_known := true, coderate := 1 } = .processExit ∧
    (.processExit : PktOutcome) ≠ .skipped ∧
    (.processExit : PktOutcome) ≠ .forwarded := by
  refine ⟨by decide, by decide, by decide⟩

/- ------------------------------------------------------------------ -/
/- get_tx_gain_lut_index (lines 3027-3073) and the TX path of         -/
/- thread_down (lines 3839-3886)                                      -/
/- ------------------------------------------------------------------ -/

/-- The scanning loop of `get_tx_gain_lut_index`: walk the LUT powers with
`diff = rf_power - lut[i]`, skip entries above the request (`diff < 0`),
and keep the first index minimizing `diff` (`current_best_index`,
`current_best_match`). -/
def lutScan : List Int → Int → Nat → Option (Nat × Int) → Option (Nat × Int)
  | [], _, _, best => best
  | e :: rest, req, i, none =>
      if req - e < 0 then lutScan rest req (i + 1) none
      else lutScan rest req (i + 1) (some (i, req - e))
  | e :: rest, req, i, some (bi, bm) =>
      if req - e < 0 then lutScan rest req (i + 1) (some (bi, bm))
      else if req - e < bm then lutScan rest req (i + 1) (some (i, req - e))
      else lutScan rest req (i + 1) (some (bi, bm))

/-- `get_tx_gain_lut_index`: index of the best lower-or-equal power in the
RF chain's TX gain LUT, `none` when every entry exceeds the request (the C
function then returns -1 after storing index 0). -/
def get_tx_gain_lut_index (lut : List Int) (rf_power : Int) : Option Nat :=
  (lutScan lut rf_power 0 none).map Prod.fst

/-- An empty scan result means the accumulator was empty and every entry
exceeds the request. -/
theorem lutScan_eq_none (L : List Int) (req : Int) :
    ∀ (i : Nat) (b : Option (Nat × Int)), lutScan L req i b = none →
      b = none ∧ ∀ e ∈ L, req < e := by
  induction L with
  | nil =>
      intro i b h
      simp only [lutScan] at h
      exact ⟨h, by simp⟩
  | cons e rest ih =>
      intro i b h
      match b with
      | none =>
          simp only [lutScan] at h
          by_cases hd : req - e < 0
          · rw [if_pos hd] at h
            have H := ih (i + 1) none h
            refine ⟨rfl, ?_⟩
            intro x hx
            rcases List.mem_cons.mp hx with hx | hx
            · omega
            · exact H.2 x hx
          · rw [if_neg hd] at h
            have H := ih (i + 1) (some (i, req - e)) h
            exact absurd H.1 (by simp)
      | some (bi, bm) =>
          simp only [lutScan] at h
          by_cases hd : req - e < 0
          · rw [if_pos hd] at h
            have H := ih (i + 1) (some (bi, bm)) h
            exact absurd H.1 (by simp)
          · rw [if_neg hd] at h
            by_cases hlt : req - e < bm
            · rw [if_pos hlt] at h
              have H := ih (i + 1) (some (i, req - e)) h
              exact absurd H.1 (by simp)
            · rw [if_neg hlt] at h
              have H := ih (i + 1) (some (bi, bm)) h
              exact absurd H.1 (by simp)

/-- Invariant of the scanning loop: a `some (j, m)` result carries a
nonnegative best difference `m`, locates an actual LUT entry of value
`req - m` (unless it is the untouched accumulator), dominates every entry
that is ≤ the request, and never worsens the accumulator. -/
theorem lutScan_eq_some (L : List Int) (req : Int) :
    ∀ (i : Nat) (b : Option (Nat × Int)) (j : Nat) (m : Int),
      (∀ j0 m0, b = some (j0, m0) → 0 ≤ m0) →
      lutScan L req i b = some (j, m) →
      0 ≤ m ∧
      (b = some (j, m) ∨
        (i ≤ j ∧ j < i + L.length ∧ L.getD (j - i) 0 = req - m)) ∧
      (∀ e ∈ L, e ≤ req → e ≤ req - m) ∧
      (∀ j0 m0, b = some (j0, m0) → m ≤ m0) := by
  induction L with
  | nil =>
      intro i b j m hb h
      simp only [lutScan] at h
      subst h
      refine ⟨hb j m rfl, Or.inl rfl, by simp, ?_⟩
      intro j0 m0 he
      simp only [Option.some.injEq, Prod.mk.injEq] at he
      exact le_of_eq he.2
  | cons e rest ih =>
      intro i b j m hb h
      match b with
      | none =>
          simp only [lutScan] at h
          by_cases hd : req - e < 0
          · rw [if_pos hd] at h
            have H := ih (i + 1) none j m (by simp) h
            refine ⟨H.1, ?_, ?_, by simp⟩
            · rcases H.2.1 with hc | hc
              · exact absurd hc (by simp)
              · refine Or.inr ⟨by omega, by simp; omega, ?_⟩
                have hji : j - i = (j - (i + 1)) + 1 := by omega
                rw [hji, List.getD_cons_succ]
                exact hc.2.2
            · intro x hx hxle
              rcases List.mem_cons.mp hx with rfl | hx
              · omega
              · exact H.2.2.1 x hx hxle
          · rw [if_neg hd] at h
            have H := ih (i + 1) (some (i, req - e)) j m
              (by intro j0 m0 he
                  simp only [Option.some.injEq, Prod.mk.injEq] at he
                  omega) h
            have hme : m ≤ req - e := H.2.2.2 i (req - e) rfl
            refine ⟨H.1, ?_, ?_, by simp⟩
            · rcases H.2.1 with hc | hc
              · simp only [Option.some.injEq, Prod.mk.injEq] at hc
                refine Or.inr ⟨by omega, by simp; omega, ?_⟩
                rcases hc with ⟨rfl, rfl⟩
                simp only [Nat.sub_self, List.getD_cons_zero]
                omega
              · refine Or.inr ⟨by omega, by simp; omega, ?_⟩
                have hji : j - i = (j - (i + 1)) + 1 := by omega
                rw [hji, List.getD_cons_succ]
                exact hc.2.2
            · intro x hx hxle
              rcases List.mem_cons.mp hx with rfl | hx
              · omega
              · exact H.2.2.1 x hx hxle
      | some (bi, bm) =>
          have hbm : 0 ≤ bm := hb bi bm rfl
          simp only [lutScan] at h
          by_cases hd : req - e < 0
          · rw [if_pos hd] at h
            have H := ih (i + 1) (some (bi, bm)) j m
              (by intro j0 m0 he
                  simp only [Option.some.injEq, Prod.mk.injEq] at he
                  omega) h
            refine ⟨H.1, ?_, ?_, ?_⟩
            · rcases H.2.1 with hc | hc
              · exact Or.inl hc
              · refine Or.inr ⟨by omega, by simp; omega, ?_⟩
                have hji : j - i = (j - (i + 1)) + 1 := by omega
                rw [hji, List.getD_cons_succ]
                exact hc.2.2
            · intro x hx hxle
              rcases List.mem_cons.mp hx with rfl | hx
              · omega
              · exact H.2.2.1 x hx hxle
            · intro j0 m0 he
              simp only [Option.some.injEq, Prod.mk.injEq] at he
              have := H.2.2.2 bi bm rfl
              omega
          · rw [if_neg hd] at h
            by_cases hlt : req - e < bm
            · rw [if_pos hlt] at h
              have H := ih (i + 1) (some (i, req - e)) j m
                (by intro j0 m0 he
                    simp only [Option.some.injEq, Prod.mk.injEq] at he
                    omega) h
              have hme : m ≤ req - e := H.2.2.2 i (req - e) rfl
              refine ⟨H.1, ?_, ?_, ?_⟩
              · rcases H.2.1 with hc | hc
                · simp only [Option.some.injEq, Prod.mk.injEq] at hc
                  refine Or.inr ⟨by omega, by simp; omega, ?_⟩
                  rcases hc with ⟨rfl, rfl⟩
                  simp only [Nat.sub_self, List.getD_cons_zero]
                  omega
                · refine Or.inr ⟨by omega, by simp; omega, ?_⟩
                  have hji : j - i = (j - (i + 1)) + 1 := by omega
                  rw [hji, List.getD_cons_succ]
                  exact hc.2.2
              · intro x hx hxle
                rcases List.mem_cons.mp hx with rfl | hx
                · omega
                · exact H.2.2.1 x hx hxle
              · intro j0 m0 he
                simp only [Option.some.injEq, Prod.mk.injEq] at he
                omega
            · rw [if_neg hlt] at h
              have H := ih (i + 1) (some (bi, bm)) j m
                (by intro j0 m0 he
                    simp only [Option.some.injEq, Prod.mk.injEq] at he
                    omega) h
              have hmb : m ≤ bm := H.2.2.2 bi bm rfl
              refine ⟨H.1, ?_, ?_, ?_⟩
              · rcases H.2.1 with hc | hc
                · exact Or.inl hc
                · refine Or.inr ⟨by omega, by simp; omega, ?_⟩
                  have hji : j - i = (j - (i + 1)) + 1 := by omega
                  rw [hji, List.getD_cons_succ]
                  exact hc.2.2
              · intro x hx hxle
                rcases List.mem_cons.mp hx with rfl | hx
                · omega
                · exact H.2.2.1 x hx hxle
              · intro j0 m0 he
                simp only [Option.some.injEq, Prod.mk.injEq] at he
                omega

/-- Helper: `List.getD` at an in-range index yields a member of the list. -/
theorem list_getD_mem (l : List Int) (j : Nat) (h : j < l.length) :
    l.getD j 0 ∈ l := by
  induction l generalizing j with
  | nil => simp at h
  | cons a t ih =>
      cases j with
      | zero => simp
      | succ n =>
          simp only [List.getD_cons_succ]
          exact List.mem_cons_of_mem _ (ih n (by simpa using h))

/-- What `get_tx_gain_lut_index` returns: `none` exactly when every LUT
power exceeds the request; a found index points at an entry that is the
largest LUT power not exceeding the request. -/
theorem get_tx_gain_lut_index_spec (lut : List Int) (req : Int) :
    (get_tx_gain_lut_index lut req = none → ∀ e ∈ lut, req < e) ∧
    (∀ j, get_tx_gain_lut_index lut req = some j →
      j < lut.length ∧ lut.getD j 0 ≤ req ∧
        ∀ e ∈ lut, e ≤ req → e ≤ lut.getD j 0) := by
  constructor
  · intro h
    unfold get_tx_gain_lut_index at h
    cases hscan : lutScan lut req 0 none with
    | none => exact (lutScan_eq_none lut req 0 none hscan).2
    | some p =>
        rw [hscan] at h
        simp at h
  · intro j h
    unfold get_tx_gain_lut_index at h
    cases hscan : lutScan lut req 0 none with
    | none =>
        rw [hscan] at h
        simp at h
    | some p =>
        rcases p with ⟨j1, m⟩
        rw [hscan] at h
        simp at h
        subst h
        have H := lutScan_eq_some lut req 0 none j1 m (by simp) hscan
        rcases H.2.1 with hc | hc
        · exact absurd hc (by simp)
        · have hj : j1 < lut.length := by
            have := hc.2.1
            omega
          have hget : lut.getD j1 0 = req - m := by
            have := hc.2.2
            simpa using this
          refine ⟨hj, by rw [hget]; have := H.1; omega, ?_⟩
          intro e he hele
          have := H.2.2.1 e he hele
          rw [hget]
          omega

/-- Result of `thread_down`'s TX validation and enqueue stage for one
downlink: the power written into the descriptor, whether `jit_enqueue` was
reached, and the error/warning and value passed to `send_tx_ack`. -/
structure DownTxResult where
  rf_power : Int
  enqueue_attempted : Bool
  ack_err : JitError
  ack_value : Int
deriving DecidableEq, Repr

/-- TX frequency check, TX power check, enqueue and TX_ACK selection of
`thread_down` (the stage after JSON parsing): frequency out of the chain's
range rejects with `TX_FREQ` before any enqueue; a requested power with no
exact LUT match is replaced by the entry `get_tx_gain_lut_index` selects
(LUT slot 0 when the search fails) and flagged as a `TX_POWER` warning
carrying the power actually used; the enqueue result, when not OK,
overrides the warning in the TX_ACK. -/
def thread_down_tx_path (freq_hz tx_freq_min tx_freq_max : Nat)
    (lut : List Int) (req_power : Int) (enq : JitError) : DownTxResult :=
  if freq_hz < tx_freq_min ∨ tx_freq_max < freq_hz then
    { rf_power := req_power, enqueue_attempted := false,
      ack_err := .txFreq, ack_value := 0 }
  else if get_tx_gain_lut_index lut req_power = none ∨
      lut.getD ((get_tx_gain_lut_index lut req_power).getD 0) 0 ≠ req_power then
    { rf_power := lut.getD ((get_tx_gain_lut_index lut req_power).getD 0) 0,
      enqueue_attempted := true,
      ack_err := if enq = .ok then .txPower else enq,
      ack_value := lut.getD ((get_tx_gain_lut_index lut req_power).getD 0) 0 }
  else
    { rf_power := req_power, enqueue_attempted := true,
      ack_err := enq, ack_value := 0 }

/-- C4 (amended): for an in-range frequency and a requested power with no
exact LUT match, the downlink still reaches `jit_enqueue` and the TX_ACK
carries the `TX_POWER` warning (unless the enqueue itself fails) with the
power actually used; when some LUT entry is ≤ the request the descriptor's
power becomes the largest such entry, but when every LUT entry exceeds the
request the code falls back to LUT slot 0 (which is above the request). -/
theorem tx_power_substitution (freq fmin fmax : Nat) (lut : List Int)
    (req : Int) (enq : JitError)
    (hf1 : fmin ≤ freq) (hf2 : freq ≤ fmax) (hno : req ∉ lut) :
    (thread_down_tx_path freq fmin fmax lut req enq).enqueue_attempted = true ∧
    (thread_down_tx_path freq fmin fmax lut req enq).ack_err =
      (if enq = .ok then .txPower else enq) ∧
    (thread_down_tx_path freq fmin fmax lut req enq).ack_value =
      (thread_down_tx_path freq fmin fmax lut req enq).rf_power ∧
    ((∃ e ∈ lut, e ≤ req) →
      (thread_down_tx_path freq fmin fmax lut req enq).rf_power ∈ lut ∧
      (thread_down_tx_path freq fmin fmax lut req enq).rf_power ≤ req ∧
      ∀ e ∈ lut, e ≤ req →
        e ≤ (thread_down_tx_path freq fmin fmax lut req enq).rf_power) ∧
    ((∀ e ∈ lut, req < e) →
      (thread_down_tx_path freq fmin fmax lut req enq).rf_power =
        lut.getD 0 0) := by
  have hfneg : ¬ (freq < fmin ∨ fmax < freq) := by omega
  have hwarn : get_tx_gain_lut_index lut req = none ∨
      lut.getD ((get_tx_gain_lut_index lut req).getD 0) 0 ≠ req := by
    cases hidx : get_tx_gain_lut_index lut req with
    | none => exact Or.inl rfl
    | some j =>
        right
        have H := (get_tx_gain_lut_index_spec lut req).2 j hidx
        intro hEq
        apply hno
        rw [← hEq]
        simp only [Option.getD_some]
        exact list_getD_mem lut j H.1
  have hpath : thread_down_tx_path freq fmin fmax lut req enq =
      { rf_power := lut.getD ((get_tx_gain_lut_index lut req).getD 0) 0,
        enqueue_attempted := true,
        ack_err := if enq = .ok then .txPower else enq,
        ack_value := lut.getD ((get_tx_gain_lut_index lut req).getD 0) 0 } := by
    unfold thread_down_tx_path
    rw [if_neg hfneg, if_pos hwarn]
  rw [hpath]
  refine ⟨rfl, rfl, rfl, ?_, ?_⟩
  · rintro ⟨e, he, hele⟩
    cases hidx : get_tx_gain_lut_index lut req with
    | none =>
        have := (get_tx_gain_lut_index_spec lut req).1 hidx e he
        omega
    | some j =>
        have H := (get_tx_gain_lut_index_spec lut req).2 j hidx
        simp only [Option.getD_some]
        exact ⟨list_getD_mem lut j H.1, H.2.1, H.2.2⟩
  · intro hall
    cases hidx : get_tx_gain_lut_index lut req with
    | none => simp
    | some j =>
        have H := (get_tx_gain_lut_index_spec lut req).2 j hidx
        have := hall (lut.getD j 0) (list_getD_mem lut j H.1)
        have h2 := H.2.1
        omega

/-- Witness for C4 (amended), the spec's scenario S4: LUT `{7, 10, 14}`
dBm, request 12 dBm, in-range frequency, enqueue succeeding: TX proceeds
at 10 dBm and the TX_ACK warns `TX_POWER` with `value: 10`. -/
theorem tx_power_substitution_witness :
    (thread_down_tx_path 868100000 863000000 870000000 [7, 10, 14] 12
      .ok).rf_power = 10 ∧
    (thread_down_tx_path 868100000 863000000 870000000 [7, 10, 14] 12
      .ok).ack_err = .txPower ∧
    (thread_down_tx_path 868100000 863000000 870000000 [7, 10, 14] 12
      .ok).ack_value = 10 ∧
    send_tx_ack_body .txPower 10 =
      "\x7b\"txpk_ack\":\x7b\"warn\":\"TX_POWER\",\"value\":10\x7d\x7d" := by
  have h := tx_power_substitution 868100000 863000000 870000000 [7, 10, 14] 12
    .ok (by norm_num) (by norm_num) (by decide)
  obtain ⟨hatt, herr, hval, hlow, _⟩ := h
  have hc := hlow ⟨10, by simp, by norm_num⟩
  have hr : (thread_down_tx_path 868100000 863000000 870000000 [7, 10, 14] 12
      .ok).rf_power = 10 := by
    have hmem := hc.1
    have hle := hc.2.1
    have hdom := hc.2.2 10 (by simp) (by norm_num)
    simp only [List.mem_cons, List.not_mem_nil, or_false] at hmem
    omega
  refine ⟨hr, by simpa using herr, by rw [hval, hr], rfl⟩

/-- Counterexample to C4 as stated: requesting 5 dBm against LUT
`{7, 10, 14}` has no exact match, yet the power used is 7 dBm — not a LUT
entry lower than or equal to the request, which does not exist here. -/
theorem tx_power_no_lower_entry_cex :
    (thread_down_tx_path 868100000 863000000 870000000 [7, 10, 14] 5
      .ok).rf_power = 7 ∧
    ¬ ((thread_down_tx_path 868100000 863000000 870000000 [7, 10, 14] 5
      .ok).rf_power ≤ 5) := by
  refine ⟨by decide, by decide⟩
